import Mathlib

/-!
Verification development for the PortfolioPanic trading-game core.

The definitions below are a shallow embedding of the TypeScript source:
JavaScript numbers are modelled as rationals, `Date.now()` timestamps as
naturals, record objects as structures, and the stateful updates of
`src/utils/chartUtils.ts` and the GameContext in
`src/components/AssetList.tsx` as pure state-passing functions.
`Math.random()` draws are supplied by an explicit stream argument.
-/

set_option maxRecDepth 4000

namespace PortfolioPanic

/-- An asset as used by the game state (id, display name, current price,
previous price, volatility coefficient). -/
structure Asset where
  id : String
  name : String
  price : ℚ
  previousPrice : ℚ
  volatility : ℚ
deriving DecidableEq, Repr

/-- A per-asset holding: long quantity, short quantity and the average
short entry price. -/
structure Holding where
  quantity : ℚ
  shortQuantity : ℚ
  averageShortPrice : ℚ
deriving DecidableEq, Repr

/-- A market news item.  `chainId`/`chainSequence` link a follow-up item to
its originator; `none` on unchained items. -/
structure NewsItem where
  id : String
  title : String
  description : String
  magnitude : ℚ
  impactedAssets : List String
  chainId : Option String
  chainSequence : Option ℕ
deriving DecidableEq, Repr

/-- The slice of the game-session state the verified operations read and
write.  `holdings` models the `Record<assetId, Holding>` as an association
list in entry order, matching the `Object.entries` iteration of the source. -/
structure GameState where
  cash : ℚ
  holdings : List (String × Holding)
  assets : List Asset
  activeNews : List NewsItem
  timeRemaining : ℚ
  isPaused : Bool
  isGameOver : Bool
deriving DecidableEq, Repr

/-! ## Net worth (src/components/AssetList.tsx, GameContext `calculateNetWorth`) -/

/-- Embedding of `calculateNetWorth`: starts from cash, and for each
holdings entry whose asset id resolves in the asset list adds
`quantity * price`, plus the short profit `shortQuantity *
(averageShortPrice - price)` when `shortQuantity > 0`.  Entries whose
asset is not found are skipped, as in the source. -/
def calculateNetWorth (s : GameState) : ℚ :=
  s.holdings.foldl (fun (acc : ℚ) p =>
    match s.assets.find? (fun a => a.id == p.1) with
    | some asset =>
        let acc1 := acc + p.2.quantity * asset.price
        if p.2.shortQuantity > (0 : ℚ) then
          acc1 + p.2.shortQuantity * (p.2.averageShortPrice - asset.price)
        else acc1
    | none => acc) s.cash

/-- The current price of the asset with the given id, `0` when the id does
not resolve (used only under hypotheses that rule the `0` case out). -/
def assetPrice (s : GameState) (assetId : String) : ℚ :=
  match s.assets.find? (fun a => a.id == assetId) with
  | some a => a.price
  | none => 0

/-- The specification formula, written from the spec text for comparison
with `calculateNetWorth`:
`cash + Σ quantity×price + Σ shortQuantity×(averageShortPrice − price)`. -/
def specNetWorth (cash : ℚ) (holdings : List (String × Holding)) (priceOf : String → ℚ) : ℚ :=
  cash + (holdings.map (fun p => p.2.quantity * priceOf p.1)).sum
       + (holdings.map (fun p => p.2.shortQuantity * (p.2.averageShortPrice - priceOf p.1))).sum

/-! ## Trades (src/components/AssetList.tsx, GameContext `executeTrade`) -/

/-- The four trade actions. -/
inductive TradeAction
  | buy
  | sell
  | short
  | cover
deriving DecidableEq, Repr

/-- The payload dispatched by `executeTrade` on its success path. -/
structure TradePayload where
  assetId : String
  action : TradeAction
  amount : ℚ
  price : ℚ
deriving DecidableEq, Repr

/-- Trade error kinds of the spec (§7). -/
inductive TradeError
  | InsufficientFunds
  | InsufficientHoldings
  | InvalidAsset
  | InvalidState
deriving DecidableEq, Repr

/-- Embedding of the `executeTrade` wrapper: an early return (game over, or
asset id not found) dispatches nothing and is modelled as `none`; otherwise
the `EXECUTE_TRADE` payload is dispatched with the found asset's price. -/
def executeTrade (s : GameState) (assetId : String) (action : TradeAction) (amount : ℚ) :
    Option TradePayload :=
  if s.isGameOver then none
  else
    match s.assets.find? (fun a => a.id == assetId) with
    | none => none
    | some asset => some ⟨assetId, action, amount, asset.price⟩

/-- Current holding for an asset id, a fresh zero holding when absent. -/
def getHolding (holdings : List (String × Holding)) (assetId : String) : Holding :=
  match holdings.find? (fun p => p.1 == assetId) with
  | some p => p.2
  | none => ⟨0, 0, 0⟩

/-- Replace (or insert) the holding for an asset id. -/
def setHolding (holdings : List (String × Holding)) (assetId : String) (h : Holding) :
    List (String × Holding) :=
  if holdings.any (fun p => p.1 == assetId) then
    holdings.map (fun p => if p.1 == assetId then (p.1, h) else p)
  else holdings ++ [(assetId, h)]

/-- Modelled from the spec: the `EXECUTE_TRADE` branch of `gameReducer`
(src/reducers/gameReducer) is not under src.  §4.4: amounts are currency,
units = amount/price; buy requires sufficient cash, sell/cover require
sufficient units, short requires margin cash ≥ amount (the margin policy is
left implementation-defined by the spec); cover realizes
units×(averageShortPrice − price).  Every failing check rejects the trade
and leaves the state unchanged. -/
def applyTradePayload (s : GameState) (p : TradePayload) : GameState × Option TradeError :=
  let units : ℚ := p.amount / p.price
  let h := getHolding s.holdings p.assetId
  match p.action with
  | TradeAction.buy =>
      if s.cash < p.amount then (s, some TradeError.InsufficientFunds)
      else ({ s with cash := s.cash - p.amount,
                     holdings := setHolding s.holdings p.assetId
                       { h with quantity := h.quantity + units } }, none)
  | TradeAction.sell =>
      if h.quantity < units then (s, some TradeError.InsufficientHoldings)
      else ({ s with cash := s.cash + p.amount,
                     holdings := setHolding s.holdings p.assetId
                       { h with quantity := h.quantity - units } }, none)
  | TradeAction.short =>
      if s.cash < p.amount then (s, some TradeError.InsufficientFunds)
      else
        let newShort := h.shortQuantity + units
        let newAvg := (h.shortQuantity * h.averageShortPrice + units * p.price) / newShort
        ({ s with holdings := setHolding s.holdings p.assetId
                    { h with shortQuantity := newShort, averageShortPrice := newAvg } }, none)
  | TradeAction.cover =>
      if h.shortQuantity < units then (s, some TradeError.InsufficientHoldings)
      else ({ s with cash := s.cash + units * (h.averageShortPrice - p.price),
                     holdings := setHolding s.holdings p.assetId
                       { h with shortQuantity := h.shortQuantity - units } }, none)

/-- One full trade attempt: the `executeTrade` guards followed, on dispatch,
by the reducer.  The TypeScript wrapper returns `undefined` on its guard
paths; the spec (§7) classifies that rejected-without-dispatch outcome as
`InvalidState`, which is how it is surfaced here. -/
def executeTradeStep (s : GameState) (assetId : String) (action : TradeAction) (amount : ℚ) :
    GameState × Option TradeError :=
  match executeTrade s assetId action amount with
  | none => (s, some TradeError.InvalidState)
  | some p => applyTradePayload s p

/-! ## Chart history (src/utils/chartUtils.ts) -/

/-- Embedding of `Math.min(...l)` over a non-empty list (`0` on `[]`,
a case the source never reaches). -/
def minList : List ℚ → ℚ
  | [] => 0
  | x :: xs => xs.foldl min x

/-- Embedding of `Math.max(...l)` over a non-empty list. -/
def maxList : List ℚ → ℚ
  | [] => 0
  | x :: xs => xs.foldl max x

/-- Per-asset chart history (`AssetChartData`). -/
structure AssetChartData where
  timestamps : List ℕ
  prices : List ℚ
  min : ℚ
  max : ℚ
  data : List (ℚ × ℕ)
deriving DecidableEq, Repr

/-- Embedding of `initAssetPriceHistory`. -/
def initAssetPriceHistory (initialPrice : ℚ) (timestamp : ℕ) : AssetChartData :=
  { timestamps := [timestamp]
    prices := [initialPrice]
    min := initialPrice
    max := initialPrice
    data := [(initialPrice, timestamp)] }

/-- Embedding of `updateAssetPriceHistory` (the already-initialized path):
push the new point, track min/max incrementally, and if the series now
holds more than 50 points drop the oldest one and recompute min/max by a
full rescan of the remaining prices. -/
def updateAssetPriceHistory (h : AssetChartData) (price : ℚ) (timestamp : ℕ) : AssetChartData :=
  let h1 : AssetChartData :=
    { timestamps := h.timestamps ++ [timestamp]
      prices := h.prices ++ [price]
      min := min h.min price
      max := max h.max price
      data := h.data ++ [(price, timestamp)] }
  if h1.prices.length > 50 then
    let h2 : AssetChartData :=
      { h1 with timestamps := h1.timestamps.tail
                prices := h1.prices.tail
                data := h1.data.tail }
    if h2.prices.length > 0 then
      { h2 with min := minList h2.prices, max := maxList h2.prices }
    else h2
  else h1

/-- The per-asset history reached from the first recorded point `e` after
the further appends `l` (the first `updateAssetPriceHistory` call on a
missing id runs `initAssetPriceHistory` and returns). -/
def runAssetHistory (e : ℚ × ℕ) (l : List (ℚ × ℕ)) : AssetChartData :=
  l.foldl (fun h p => updateAssetPriceHistory h p.1 p.2) (initAssetPriceHistory e.1 e.2)

/-- A portfolio event marker (`PortfolioEvent`). -/
structure PortfolioEvent where
  timestamp : ℕ
  value : ℚ
  type : String
  description : String
deriving DecidableEq, Repr

/-- Portfolio chart history (`PortfolioHistoryData`).  The source type also
has a list of chart text markers that no modelled function ever writes; it
is omitted here. -/
structure PortfolioHistoryData where
  timestamps : List ℕ
  values : List ℚ
  events : List PortfolioEvent
  min : ℚ
  max : ℚ
  startValue : ℚ
  data : List (ℚ × ℕ)
deriving DecidableEq, Repr

/-- The module-level `portfolioHistory` object before any append. -/
def initialPortfolioHistory : PortfolioHistoryData :=
  { timestamps := [], values := [], events := [], min := 0, max := 0, startValue := 0, data := [] }

/-- Embedding of `updatePortfolioHistory`: on the first point initialize
`startValue` and the padded min/max; push the point; track min/max with 10%
padding; append the optional event; and when the series exceeds 200 points
drop the oldest one (without touching min/max). -/
def updatePortfolioHistory (p : PortfolioHistoryData) (value : ℚ) (timestamp : ℕ)
    (event : Option (String × String)) : PortfolioHistoryData :=
  let p0 : PortfolioHistoryData :=
    if p.values.length = 0 then
      { p with startValue := value, min := value * 0.9, max := value * 1.1 }
    else p
  let p1 : PortfolioHistoryData :=
    { p0 with timestamps := p0.timestamps ++ [timestamp]
              values := p0.values ++ [value]
              data := p0.data ++ [(value, timestamp)]
              min := min p0.min (value * 0.9)
              max := max p0.max (value * 1.1) }
  let p2 : PortfolioHistoryData :=
    match event with
    | some ev => { p1 with events := p1.events ++ [⟨timestamp, value, ev.1, ev.2⟩] }
    | none => p1
  if p2.values.length > 200 then
    { p2 with timestamps := p2.timestamps.tail
              values := p2.values.tail
              data := p2.data.tail }
  else p2

/-- A portfolio append request: value, timestamp, optional event. -/
def portfolioStep (p : PortfolioHistoryData) (e : ℚ × ℕ × Option (String × String)) :
    PortfolioHistoryData :=
  updatePortfolioHistory p e.1 e.2.1 e.2.2

/-- The portfolio history after a sequence of appends to the fresh object. -/
def runPortfolio (l : List (ℚ × ℕ × Option (String × String))) : PortfolioHistoryData :=
  l.foldl portfolioStep initialPortfolioHistory

/-! ## News chaining and timers (src/components/AssetList.tsx, `updateTimer`) -/

/-- Attaching a chain to a freshly generated item: `chainId` set,
`chainSequence := 1`. -/
def attachChain (raw : NewsItem) (chainId : String) : NewsItem :=
  { raw with chainId := some chainId, chainSequence := some 1 }

/-- The follow-up item dispatched by the chained `setTimeout` callback:
a freshly generated high-impact item with the chain id, `chainSequence := 2`,
a retitled headline, and the original item's impacted assets and 1.5-times
magnitude. -/
def makeFollowUp (chainId : String) (original fresh : NewsItem) : NewsItem :=
  { fresh with chainId := some chainId
               chainSequence := some 2
               title := "UPDATE: " ++ fresh.title
               impactedAssets := original.impactedAssets
               magnitude := original.magnitude * 1.5 }

/-- A pending `setTimeout` created by the loop.  A follow-up emission task
carries the `state` snapshot its JavaScript closure captured when it was
scheduled; an expiry task carries the id to remove.  `delay` is the
timeout in milliseconds. -/
inductive TimerTask
  | followUpEmit (chainId : String) (original : NewsItem) (captured : GameState) (delay : ℕ)
  | expireNews (newsId : String) (delay : ℕ)
deriving DecidableEq, Repr

/-- The emitted item and the timer tasks scheduled when one scheduled
timing is hit (lines 182-242 of the loop): when the event is chained the
chain is attached and a follow-up timeout is scheduled; in every case an
expiry timeout for the emitted item is scheduled with delay 15000 ms. -/
def emitScheduledNews (s : GameState) (raw : NewsItem) (isChained : Bool) (chainId : String)
    (followUpDelay : ℕ) : NewsItem × List TimerTask :=
  if isChained then
    let item := attachChain raw chainId
    (item, [TimerTask.followUpEmit chainId item s followUpDelay,
            TimerTask.expireNews item.id 15000])
  else
    (raw, [TimerTask.expireNews raw.id 15000])

/-- The body of the follow-up `setTimeout` callback: the pause/game-over
guard reads the captured snapshot (the closed-over `state` of the frame
that scheduled it); on success the follow-up item is dispatched.  The
callback creates no further timeouts, so the scheduled-task component is
always `[]`. -/
def runFollowUpCallback (captured : GameState) (chainId : String) (original fresh : NewsItem) :
    Option NewsItem × List TimerTask :=
  if !captured.isPaused && !captured.isGameOver then
    (some (makeFollowUp chainId original fresh), [])
  else (none, [])

/-- Modelled from the spec: the `ADD_NEWS` branch of `gameReducer`
(src/reducers/gameReducer) is not under src; the dispatched item joins the
active news list (its price-impact application is not needed by any claim
and is omitted). -/
def addNewsReducer (s : GameState) (item : NewsItem) : GameState :=
  { s with activeNews := s.activeNews ++ [item] }

/-- Modelled from the spec: the `EXPIRE_NEWS` branch of `gameReducer` is
not under src; the item with the dispatched id leaves the active news
list. -/
def expireNewsReducer (s : GameState) (newsId : String) : GameState :=
  { s with activeNews := s.activeNews.filter (fun n => !(n.id == newsId)) }

/-- Modelled from the spec: the `TICK` branch of `gameReducer` is not under
src; §4.6/§5: the countdown advances only while Running, so a paused or
finished game keeps its remaining time. -/
def tickReducer (s : GameState) (deltaTime : ℚ) : GameState :=
  if s.isPaused || s.isGameOver then s
  else { s with timeRemaining := s.timeRemaining - deltaTime }

/-- The event-schedule consumption of one loop frame: the whole frame body
runs only while the game is not over, and the scheduled-news block runs
only while the live state is not paused; a timing fires when it is within
100 ms of the elapsed time. -/
def dueTimings (live : GameState) (eventSchedule : List ℚ) (elapsedMs : ℚ) : List ℚ :=
  if live.isGameOver then []
  else if live.isPaused then []
  else eventSchedule.filter (fun timing => |elapsedMs - timing| < 100)

/-- Firing of a previously scheduled follow-up timeout against the live
state: the guard reads the captured snapshot, the dispatch mutates the live
state. -/
def fireFollowUp (captured live : GameState) (chainId : String) (original fresh : NewsItem) :
    GameState :=
  if !captured.isPaused && !captured.isGameOver then
    addNewsReducer live (makeFollowUp chainId original fresh)
  else live

/-- Firing of a previously scheduled expiry timeout: the callback dispatches
`EXPIRE_NEWS` unconditionally. -/
def fireExpiry (live : GameState) (newsId : String) : GameState :=
  expireNewsReducer live newsId

/-! ## Trend series generators (src/components/AssetList.tsx
`generatePriceHistory`, src/utils/chartUtils.ts
`generateEnhancedSparklineData`) -/

/-- One intermediate trend sample, shared shape of the two generators
(they differ only in the deviation scale constant): linear interpolation
between `prev` and `base` at `position = i/(points-1)`, plus a random
deviation `(r - 0.5) * volatility * base * scale` weighted by
`1 - trendFactor`, where `trendFactor` is `0` up to the midpoint and
`(position - 0.5) * 2` past it. -/
def trendPoint (prev base volatility scale : ℚ) (points i : ℕ) (r : ℚ) : ℚ :=
  let position : ℚ := (i : ℚ) / ((points : ℚ) - 1)
  let trendFactor : ℚ := if position > 0.5 then (position - 0.5) * 2 else 0
  let baseValue : ℚ := prev * (1 - position) + base * position
  let deviation : ℚ := (r - 0.5) * volatility * base * scale
  baseValue + deviation * (1 - trendFactor)

/-- Embedding of `generatePriceHistory` (AssetList chart history):
20 points, first the previous price, then 18 intermediate samples with
deviation scale 0.3, last the current price.  `rnd i` supplies the
`Math.random()` draw of iteration `i`. -/
def generatePriceHistory (asset : Asset) (rnd : ℕ → ℚ) : List ℚ :=
  [asset.previousPrice]
    ++ (List.range 18).map (fun k =>
        trendPoint asset.previousPrice asset.price asset.volatility 0.3 20 (k + 1) (rnd (k + 1)))
    ++ [asset.price]

/-- Embedding of `generateEnhancedSparklineData`: `length` points with
timestamps 500 ms apart ending at `now`, first the previous price, then
`length - 2` intermediate samples with the amplified deviation scale 0.6,
last the current price. -/
def generateEnhancedSparklineData (asset : Asset) (length : ℕ) (rnd : ℕ → ℚ) (now : ℕ) :
    List (ℚ × ℕ) :=
  let t0 : ℕ := now - length * 500
  [(asset.previousPrice, t0)]
    ++ (List.range (length - 2)).map (fun k =>
        (trendPoint asset.previousPrice asset.price asset.volatility 0.6 length (k + 1)
           (rnd (k + 1)),
         t0 + (k + 1) * 500))
    ++ [(asset.price, now)]

/-! ## Concrete instances used by witnesses and counterexamples -/

/-- A game state matching the worked example of the spec: cash 1000, a long
position of 2 units on an asset priced 50, and a short position of 1 unit at
average short price 40 on an asset now priced 30. -/
def exampleState : GameState :=
  { cash := 1000
    holdings := [("alpha", ⟨2, 0, 0⟩), ("beta", ⟨0, 1, 40⟩)]
    assets :=
      [{ id := "alpha", name := "Alpha", price := 50, previousPrice := 50, volatility := 0.1 },
       { id := "beta", name := "Beta", price := 30, previousPrice := 30, volatility := 0.1 }]
    activeNews := []
    timeRemaining := 60
    isPaused := false
    isGameOver := false }

/-- The portfolio history reached from a first append of value 1 followed by
`n` appends of value 10. -/
def tenfold (n : ℕ) : PortfolioHistoryData :=
  List.foldl portfolioStep (portfolioStep initialPortfolioHistory ((1 : ℚ), 0, none))
    (List.replicate n ((10 : ℚ), 0, none))

/-- The portfolio history after 201 appends: value 1 first, then 200
appends of value 10, so the last append evicts the stored value 1. -/
def overfullPortfolio : PortfolioHistoryData :=
  runPortfolio (((1 : ℚ), 0, none) :: List.replicate 200 ((10 : ℚ), 0, none))

/-- An asset at price 120 coming from previous price 100 with volatility
1/10, the instance used in the trend-series witnesses. -/
def exAsset : Asset :=
  { id := "ex", name := "Ex", price := 120, previousPrice := 100, volatility := 1/10 }

/-- A deterministic random stream that always draws 1. -/
def oneRand : ℕ → ℚ := fun _ => 1

/-- A deterministic random stream that always draws 7/10. -/
def constRand : ℕ → ℚ := fun _ => 7/10

/-- A plain news item with id `n1`. -/
def newsA : NewsItem :=
  { id := "n1", title := "T1", description := "D1", magnitude := 1,
    impactedAssets := ["alpha"], chainId := none, chainSequence := none }

/-- A plain news item with id `n2`, standing for the fresh item the
follow-up callback generates. -/
def newsB : NewsItem :=
  { id := "n2", title := "T2", description := "D2", magnitude := 1,
    impactedAssets := ["beta"], chainId := none, chainSequence := none }

/-- The original item emitted by a chained emission in `exampleState`. -/
def chainedOriginal : NewsItem :=
  (emitScheduledNews exampleState newsA true "chain-1" 7000).1

/-- All timer tasks created across a chained emission and the later firing
of its follow-up callback. -/
def chainedEpisodeTasks : List TimerTask :=
  (emitScheduledNews exampleState newsA true "chain-1" 7000).2 ++
    (runFollowUpCallback exampleState "chain-1" chainedOriginal newsB).2

/-- Whether a timer task is an expiry for the given news id. -/
def isExpiryFor (newsId : String) : TimerTask → Bool
  | TimerTask.expireNews i _ => i == newsId
  | _ => false

/-- A per-asset history filled to exactly 50 points. -/
def fullAssetHistory : AssetChartData :=
  { timestamps := List.replicate 50 0
    prices := List.replicate 50 1
    min := 1
    max := 1
    data := List.replicate 50 (1, 0) }

/-- A portfolio history filled to exactly 200 points. -/
def fullPortfolioHistory : PortfolioHistoryData :=
  { timestamps := List.replicate 200 0
    values := List.replicate 200 1
    events := []
    min := 0.9
    max := 1.1
    startValue := 1
    data := List.replicate 200 (1, 0) }

/-- The example state with the paused flag set. -/
def pausedState : GameState := { exampleState with isPaused := true }

/-- A small non-empty portfolio history holding the single value 2. -/
def smallPortfolio : PortfolioHistoryData :=
  { timestamps := [0]
    values := [2]
    events := []
    min := 2 * 0.9
    max := 2 * 1.1
    startValue := 2
    data := [(2, 0)] }

/-! ## Theorems -/

lemma calculateNetWorth_fold (s : GameState) (l : List (String × Holding)) (acc : ℚ)
    (hfound : ∀ p ∈ l, (s.assets.find? (fun a => a.id == p.1)).isSome)
    (hshort : ∀ p ∈ l, 0 ≤ p.2.shortQuantity) :
    l.foldl (fun (acc : ℚ) p =>
      match s.assets.find? (fun a => a.id == p.1) with
      | some asset =>
          let acc1 := acc + p.2.quantity * asset.price
          if p.2.shortQuantity > (0 : ℚ) then
            acc1 + p.2.shortQuantity * (p.2.averageShortPrice - asset.price)
          else acc1
      | none => acc) acc
      = acc + (l.map (fun p => p.2.quantity * assetPrice s p.1)).sum
          + (l.map (fun p => p.2.shortQuantity * (p.2.averageShortPrice - assetPrice s p.1))).sum := by
  induction l generalizing acc with
  | nil => simp
  | cons p t ih =>
    have hp := hfound p (List.mem_cons_self p t)
    obtain ⟨asset, ha⟩ := Option.isSome_iff_exists.mp hp
    have hprice : assetPrice s p.1 = asset.price := by
      unfold assetPrice
      rw [ha]
    have hrest : ∀ q ∈ t, (s.assets.find? (fun a => a.id == q.1)).isSome :=
      fun q hq => hfound q (List.mem_cons_of_mem p hq)
    have hsrest : ∀ q ∈ t, 0 ≤ q.2.shortQuantity :=
      fun q hq => hshort q (List.mem_cons_of_mem p hq)
    have hsp : 0 ≤ p.2.shortQuantity := hshort p (List.mem_cons_self p t)
    simp only [List.foldl_cons, List.map_cons, List.sum_cons, ha, hprice]
    rw [ih _ hrest hsrest]
    by_cases hq : p.2.shortQuantity > (0 : ℚ)
    · simp only [if_pos hq]
      ring
    · have hz : p.2.shortQuantity = 0 := le_antisymm (not_lt.mp hq) hsp
      rw [if_neg hq, hz]
      ring

/-- C1: for every game state in which each held asset id resolves in the
asset list and short quantities are non-negative, `calculateNetWorth`
equals the spec formula `cash + Σ quantity×price + Σ shortQuantity×
(averageShortPrice − price)`; the witness instantiates the spec's example
(cash 1000, 2 units at 50, 1 short at average 40 with price 30 → 1110). -/
theorem netWorth_eq_cash_longs_shorts (s : GameState)
    (hfound : ∀ p ∈ s.holdings, (s.assets.find? (fun a => a.id == p.1)).isSome)
    (hshort : ∀ p ∈ s.holdings, 0 ≤ p.2.shortQuantity) :
    calculateNetWorth s = specNetWorth s.cash s.holdings (assetPrice s) := by
  unfold calculateNetWorth specNetWorth
  rw [calculateNetWorth_fold s s.holdings s.cash hfound hshort]

/-- Witness for C1 at the spec's worked example: the hypotheses hold and
the computed net worth is exactly 1110. -/
theorem netWorth_eq_cash_longs_shorts_witness :
    calculateNetWorth exampleState
        = specNetWorth exampleState.cash exampleState.holdings (assetPrice exampleState) ∧
    calculateNetWorth exampleState = 1110 :=
  ⟨netWorth_eq_cash_longs_shorts exampleState (by decide) (by norm_num [exampleState]),
   by
    have hA : List.find? (fun (a : Asset) => a.id == "alpha")
        ([{ id := "alpha", name := "Alpha", price := 50, previousPrice := 50, volatility := 0.1 },
          { id := "beta", name := "Beta", price := 30, previousPrice := 30, volatility := 0.1 }]
          : List Asset)
          = some { id := "alpha", name := "Alpha", price := 50, previousPrice := 50,
                   volatility := 0.1 } := rfl
    have hB : List.find? (fun (a : Asset) => a.id == "beta")
        ([{ id := "alpha", name := "Alpha", price := 50, previousPrice := 50, volatility := 0.1 },
          { id := "beta", name := "Beta", price := 30, previousPrice := 30, volatility := 0.1 }]
          : List Asset)
          = some { id := "beta", name := "Beta", price := 30, previousPrice := 30,
                   volatility := 0.1 } := rfl
    simp only [calculateNetWorth, exampleState, List.foldl_cons, List.foldl_nil, hA, hB]
    norm_num⟩

/-- C2: any trade attempted while the game-over flag is set, and any trade
against an asset id missing from the asset list, is rejected as
`InvalidState` with the state (cash and all holdings) unchanged. -/
theorem trade_rejected_gameOver_or_missing (s : GameState) (assetId : String)
    (action : TradeAction) (amount : ℚ) :
    (s.isGameOver = true →
        executeTradeStep s assetId action amount = (s, some TradeError.InvalidState)) ∧
    (s.assets.find? (fun a => a.id == assetId) = none →
        executeTradeStep s assetId action amount = (s, some TradeError.InvalidState)) := by
  constructor
  · intro h
    simp [executeTradeStep, executeTrade, h]
  · intro h
    by_cases hg : s.isGameOver
    · simp [executeTradeStep, executeTrade, hg]
    · simp [executeTradeStep, executeTrade, hg, h]

/-- Witness for C2: a buy on a finished game and a buy on an unknown asset
id are both rejected as `InvalidState` with the state unchanged. -/
theorem trade_rejected_witness :
    executeTradeStep { exampleState with isGameOver := true } "alpha" TradeAction.buy 10
        = ({ exampleState with isGameOver := true }, some TradeError.InvalidState) ∧
    executeTradeStep exampleState "zeta" TradeAction.buy 10
        = (exampleState, some TradeError.InvalidState) :=
  ⟨(trade_rejected_gameOver_or_missing { exampleState with isGameOver := true }
      "alpha" TradeAction.buy 10).1 rfl,
   (trade_rejected_gameOver_or_missing exampleState "zeta" TradeAction.buy 10).2 (by decide)⟩

lemma updateAssetPriceHistory_length_le (h : AssetChartData) (price : ℚ) (ts : ℕ)
    (hb : h.prices.length ≤ 50) :
    (updateAssetPriceHistory h price ts).prices.length ≤ 50 := by
  unfold updateAssetPriceHistory
  by_cases hc : (h.prices ++ [price]).length > 50
  · simp only [if_pos hc]
    split
    · simp
      omega
    · simp
      omega
  · simp only [if_neg hc]
    simp at hc
    simpa using hc

lemma updatePortfolioHistory_values (p : PortfolioHistoryData) (v : ℚ) (ts : ℕ)
    (ev : Option (String × String)) :
    (updatePortfolioHistory p v ts ev).values =
      if p.values.length + 1 > 200 then (p.values ++ [v]).tail else p.values ++ [v] := by
  unfold updatePortfolioHistory
  by_cases h0 : p.values.length = 0 <;> cases ev <;> simp [h0] <;> split <;> rfl

lemma updatePortfolioHistory_length_le (p : PortfolioHistoryData) (v : ℚ) (ts : ℕ)
    (ev : Option (String × String)) (hb : p.values.length ≤ 200) :
    (updatePortfolioHistory p v ts ev).values.length ≤ 200 := by
  rw [updatePortfolioHistory_values]
  split <;> simp <;> omega

lemma runAssetHistory_length_le (e : ℚ × ℕ) (l : List (ℚ × ℕ)) :
    (runAssetHistory e l).prices.length ≤ 50 := by
  have key : ∀ (l : List (ℚ × ℕ)) (h : AssetChartData), h.prices.length ≤ 50 →
      (l.foldl (fun h p => updateAssetPriceHistory h p.1 p.2) h).prices.length ≤ 50 := by
    intro l
    induction l with
    | nil => intro h hh; simpa using hh
    | cons p t ih =>
      intro h hh
      exact ih _ (updateAssetPriceHistory_length_le _ _ _ hh)
  exact key l _ (by simp [initAssetPriceHistory])

lemma runPortfolio_length_le (l : List (ℚ × ℕ × Option (String × String))) :
    (runPortfolio l).values.length ≤ 200 := by
  have key : ∀ (l : List (ℚ × ℕ × Option (String × String))) (p : PortfolioHistoryData),
      p.values.length ≤ 200 → (l.foldl portfolioStep p).values.length ≤ 200 := by
    intro l
    induction l with
    | nil => intro p hp; simpa using hp
    | cons e t ih =>
      intro p hp
      exact ih _ (updatePortfolioHistory_length_le _ _ _ _ hp)
  exact key l _ (by simp [initialPortfolioHistory])

lemma updateAssetPriceHistory_evicts (h : AssetChartData) (price : ℚ) (ts : ℕ)
    (h50 : h.prices.length = 50) :
    (updateAssetPriceHistory h price ts).prices = h.prices.tail ++ [price] := by
  have hne : h.prices ≠ [] := by
    intro hnil
    rw [hnil] at h50
    simp at h50
  have hc : (h.prices ++ [price]).length > 50 := by
    simp [h50]
  unfold updateAssetPriceHistory
  simp only [if_pos hc]
  split <;> simp [List.tail_append_singleton_of_ne_nil hne]

lemma updatePortfolioHistory_evicts (p : PortfolioHistoryData) (v : ℚ) (ts : ℕ)
    (ev : Option (String × String)) (h200 : p.values.length = 200) :
    (updatePortfolioHistory p v ts ev).values = p.values.tail ++ [v] := by
  have hne : p.values ≠ [] := by
    intro hnil
    rw [hnil] at h200
    simp at h200
  rw [updatePortfolioHistory_values, if_pos (by omega),
    List.tail_append_singleton_of_ne_nil hne]

/-- C3: per-asset history length never exceeds 50 and portfolio history
length never exceeds 200 after any sequence of appends, and when an append
exceeds the cap exactly the oldest single point is evicted. -/
theorem history_caps_and_oldest_eviction :
    (∀ (e : ℚ × ℕ) (l : List (ℚ × ℕ)), (runAssetHistory e l).prices.length ≤ 50) ∧
    (∀ lp : List (ℚ × ℕ × Option (String × String)), (runPortfolio lp).values.length ≤ 200) ∧
    (∀ (h : AssetChartData) (price : ℚ) (ts : ℕ), h.prices.length = 50 →
        (updateAssetPriceHistory h price ts).prices = h.prices.tail ++ [price]) ∧
    (∀ (p : PortfolioHistoryData) (v : ℚ) (ts : ℕ) (ev : Option (String × String)),
        p.values.length = 200 →
        (updatePortfolioHistory p v ts ev).values = p.values.tail ++ [v]) :=
  ⟨runAssetHistory_length_le, runPortfolio_length_le,
   updateAssetPriceHistory_evicts, updatePortfolioHistory_evicts⟩

/-- Witness for C3 at concrete histories filled to their caps. -/
theorem history_caps_witness :
    (runAssetHistory ((1 : ℚ), 0) []).prices.length ≤ 50 ∧
    (runPortfolio []).values.length ≤ 200 ∧
    (updateAssetPriceHistory fullAssetHistory 7 1).prices = fullAssetHistory.prices.tail ++ [7] ∧
    (updatePortfolioHistory fullPortfolioHistory 7 1 none).values
        = fullPortfolioHistory.values.tail ++ [7] :=
  ⟨history_caps_and_oldest_eviction.1 _ _,
   history_caps_and_oldest_eviction.2.1 _,
   history_caps_and_oldest_eviction.2.2.1 fullAssetHistory 7 1 (by simp [fullAssetHistory]),
   history_caps_and_oldest_eviction.2.2.2 fullPortfolioHistory 7 1 none
     (by simp [fullPortfolioHistory])⟩

lemma updatePortfolioHistory_min (p : PortfolioHistoryData) (v : ℚ) (ts : ℕ)
    (ev : Option (String × String)) :
    (updatePortfolioHistory p v ts ev).min =
      if p.values.length = 0 then v * 0.9 else min p.min (v * 0.9) := by
  unfold updatePortfolioHistory
  by_cases h0 : p.values.length = 0 <;> cases ev <;> simp [h0] <;> split <;> rfl

lemma updatePortfolioHistory_max (p : PortfolioHistoryData) (v : ℚ) (ts : ℕ)
    (ev : Option (String × String)) :
    (updatePortfolioHistory p v ts ev).max =
      if p.values.length = 0 then v * 1.1 else max p.max (v * 1.1) := by
  unfold updatePortfolioHistory
  by_cases h0 : p.values.length = 0 <;> cases ev <;> simp [h0] <;> split <;> rfl

lemma minList_append (l : List ℚ) (x : ℚ) (h : l ≠ []) :
    minList (l ++ [x]) = min (minList l) x := by
  cases l with
  | nil => simp at h
  | cons y ys => simp [minList, List.foldl_append]

lemma maxList_append (l : List ℚ) (x : ℚ) (h : l ≠ []) :
    maxList (l ++ [x]) = max (maxList l) x := by
  cases l with
  | nil => simp at h
  | cons y ys => simp [maxList, List.foldl_append]

lemma updateAssetPriceHistory_minmax (h : AssetChartData) (price : ℚ) (ts : ℕ)
    (hne : h.prices ≠ []) (hmin : h.min = minList h.prices) (hmax : h.max = maxList h.prices) :
    (updateAssetPriceHistory h price ts).prices ≠ [] ∧
    (updateAssetPriceHistory h price ts).min = minList (updateAssetPriceHistory h price ts).prices ∧
    (updateAssetPriceHistory h price ts).max
        = maxList (updateAssetPriceHistory h price ts).prices := by
  unfold updateAssetPriceHistory
  by_cases hc : (h.prices ++ [price]).length > 50
  · have hlen : 0 < ((h.prices ++ [price]).tail).length := by
      simp only [List.length_tail, List.length_append, List.length_cons, List.length_nil] at hc ⊢
      omega
    have hlen' : ((h.prices ++ [price]).tail).length > 0 := hlen
    simp only [if_pos hc, if_pos hlen']
    exact ⟨List.ne_nil_of_length_pos hlen, trivial, trivial⟩
  · simp only [if_neg hc]
    refine ⟨by simp, ?_, ?_⟩
    · simpa using by rw [hmin, minList_append _ _ hne]
    · simpa using by rw [hmax, maxList_append _ _ hne]

lemma runAssetHistory_minmax (e : ℚ × ℕ) (l : List (ℚ × ℕ)) :
    (runAssetHistory e l).prices ≠ [] ∧
    (runAssetHistory e l).min = minList (runAssetHistory e l).prices ∧
    (runAssetHistory e l).max = maxList (runAssetHistory e l).prices := by
  have key : ∀ (l : List (ℚ × ℕ)) (h : AssetChartData),
      h.prices ≠ [] → h.min = minList h.prices → h.max = maxList h.prices →
      ((l.foldl (fun h p => updateAssetPriceHistory h p.1 p.2) h).prices ≠ [] ∧
        (l.foldl (fun h p => updateAssetPriceHistory h p.1 p.2) h).min
            = minList (l.foldl (fun h p => updateAssetPriceHistory h p.1 p.2) h).prices ∧
        (l.foldl (fun h p => updateAssetPriceHistory h p.1 p.2) h).max
            = maxList (l.foldl (fun h p => updateAssetPriceHistory h p.1 p.2) h).prices) := by
    intro l
    induction l with
    | nil => intro h h1 h2 h3; exact ⟨h1, h2, h3⟩
    | cons q t ih =>
      intro h h1 h2 h3
      obtain ⟨g1, g2, g3⟩ := updateAssetPriceHistory_minmax h q.1 q.2 h1 h2 h3
      exact ih _ g1 g2 g3
  exact key l _ (by simp [initAssetPriceHistory]) (by simp [initAssetPriceHistory, minList])
    (by simp [initAssetPriceHistory, maxList])

/-- C4 (amended): the per-asset history's stored min and max always equal a
full rescan of the currently stored prices — in particular after evictions —
while the portfolio history never rescans: every portfolio append, evicting
or not, keeps the incrementally tracked padded values
`min(min, 0.9·v)` / `max(max, 1.1·v)`. -/
theorem asset_minmax_rescan_portfolio_padded (e : ℚ × ℕ) (l : List (ℚ × ℕ))
    (p : PortfolioHistoryData) (v : ℚ) (ts : ℕ) (ev : Option (String × String))
    (hne : p.values ≠ []) :
    (runAssetHistory e l).min = minList (runAssetHistory e l).prices ∧
    (runAssetHistory e l).max = maxList (runAssetHistory e l).prices ∧
    (updatePortfolioHistory p v ts ev).min = min p.min (v * 0.9) ∧
    (updatePortfolioHistory p v ts ev).max = max p.max (v * 1.1) := by
  have h0 : ¬ p.values.length = 0 := by
    simpa [List.length_eq_zero] using hne
  refine ⟨(runAssetHistory_minmax e l).2.1, (runAssetHistory_minmax e l).2.2, ?_, ?_⟩
  · rw [updatePortfolioHistory_min, if_neg h0]
  · rw [updatePortfolioHistory_max, if_neg h0]

/-- Witness for C4 (amended) at a one-point asset history and the one-value
portfolio history. -/
theorem asset_minmax_rescan_witness :
    (runAssetHistory ((1 : ℚ), 0) []).min = minList (runAssetHistory ((1 : ℚ), 0) []).prices ∧
    (runAssetHistory ((1 : ℚ), 0) []).max = maxList (runAssetHistory ((1 : ℚ), 0) []).prices ∧
    (updatePortfolioHistory smallPortfolio 3 1 none).min = min smallPortfolio.min (3 * 0.9) ∧
    (updatePortfolioHistory smallPortfolio 3 1 none).max = max smallPortfolio.max (3 * 1.1) :=
  asset_minmax_rescan_portfolio_padded ((1 : ℚ), 0) [] smallPortfolio 3 1 none
    (by simp [smallPortfolio])

lemma tenfold_succ (n : ℕ) :
    tenfold (n + 1) = portfolioStep (tenfold n) ((10 : ℚ), 0, none) := by
  unfold tenfold
  rw [List.replicate_succ', List.foldl_append]
  rfl

lemma tenfold_invariant (n : ℕ) (hn : n ≤ 199) :
    (tenfold n).values = 1 :: List.replicate n (10 : ℚ) ∧ (tenfold n).min = 1 * 0.9 := by
  induction n with
  | zero =>
    constructor
    · rw [show tenfold 0 = portfolioStep initialPortfolioHistory ((1 : ℚ), 0, none) from rfl]
      unfold portfolioStep
      rw [updatePortfolioHistory_values]
      simp [initialPortfolioHistory]
    · rw [show tenfold 0 = portfolioStep initialPortfolioHistory ((1 : ℚ), 0, none) from rfl]
      unfold portfolioStep
      rw [updatePortfolioHistory_min]
      simp [initialPortfolioHistory]
  | succ n ih =>
    obtain ⟨hv, hm⟩ := ih (by omega)
    have hlen : (tenfold n).values.length = n + 1 := by
      rw [hv]
      simp
    constructor
    · rw [tenfold_succ]
      unfold portfolioStep
      rw [updatePortfolioHistory_values, if_neg (by omega), hv]
      rw [List.cons_append, ← List.replicate_succ']
    · rw [tenfold_succ]
      unfold portfolioStep
      rw [updatePortfolioHistory_min, if_neg (by omega), hm]
      rw [min_eq_left (by norm_num)]

lemma overfullPortfolio_eq :
    overfullPortfolio.values = List.replicate 200 (10 : ℚ) ∧ overfullPortfolio.min = 1 * 0.9 := by
  obtain ⟨hv, hm⟩ := tenfold_invariant 199 (le_refl _)
  have hlen : (tenfold 199).values.length = 200 := by
    rw [hv]
    simp
  have hof : overfullPortfolio = portfolioStep (tenfold 199) ((10 : ℚ), 0, none) := by
    unfold overfullPortfolio runPortfolio
    rw [List.foldl_cons]
    exact tenfold_succ 199
  constructor
  · rw [hof]
    unfold portfolioStep
    rw [updatePortfolioHistory_values, if_pos (by omega), hv]
    rw [List.cons_append, List.tail_cons, ← List.replicate_succ']
  · rw [hof]
    unfold portfolioStep
    rw [updatePortfolioHistory_min, if_neg (by omega), hm]
    rw [min_eq_left (by norm_num)]

lemma foldl_min_replicate (n : ℕ) (x : ℚ) : List.foldl min x (List.replicate n x) = x := by
  induction n with
  | zero => rfl
  | succ n ih =>
    rw [List.replicate_succ, List.foldl_cons, min_self]
    exact ih

lemma minList_replicate (n : ℕ) (x : ℚ) : minList (List.replicate (n + 1) x) = x := by
  rw [List.replicate_succ]
  exact foldl_min_replicate n x

/-- C4 counterexample: after the 201st portfolio append the oldest value 1
is evicted and every stored value is 10, yet the stored min is still 0.9 —
strictly below both the rescanned minimum of the remaining values (10) and
its 10%-padded variant (9) — so the portfolio history does NOT recompute
min/max by a rescan on eviction. -/
theorem portfolio_no_rescan_counterexample :
    overfullPortfolio.values = List.replicate 200 (10 : ℚ) ∧
    overfullPortfolio.min = 0.9 ∧
    minList overfullPortfolio.values = 10 ∧
    (0.9 : ℚ) < 10 * 0.9 ∧ (0.9 : ℚ) < 10 := by
  obtain ⟨hv, hm⟩ := overfullPortfolio_eq
  refine ⟨hv, ?_, ?_, by norm_num, by norm_num⟩
  · rw [hm]
    norm_num
  · rw [hv]
    exact minList_replicate 199 10

/-- C5: the follow-up of a chained news item carries the same chainId as
the emitted original, chainSequence 2, exactly 1.5 times the original's
magnitude, and the original's impacted-asset set; the emitted original is
the raw item with the chain attached. -/
theorem followUp_chain_fields (s : GameState) (chainId : String) (raw fresh : NewsItem)
    (d : ℕ) :
    (emitScheduledNews s raw true chainId d).1 = attachChain raw chainId ∧
    (makeFollowUp chainId (attachChain raw chainId) fresh).chainId
        = (attachChain raw chainId).chainId ∧
    (makeFollowUp chainId (attachChain raw chainId) fresh).chainSequence = some 2 ∧
    (makeFollowUp chainId (attachChain raw chainId) fresh).magnitude
        = (attachChain raw chainId).magnitude * 1.5 ∧
    (makeFollowUp chainId (attachChain raw chainId) fresh).impactedAssets
        = (attachChain raw chainId).impactedAssets :=
  ⟨rfl, rfl, rfl, rfl, rfl⟩

/-- C6 (amended): every item emitted by the main scheduler loop has its
removal scheduled exactly 15000 ms after emission, but the follow-up
callback schedules no timer at all, so a chained follow-up item gets no
removal scheduled. -/
theorem expiry_scheduled_for_main_items_only (s : GameState) (raw : NewsItem) (b : Bool)
    (cid : String) (d : ℕ) (captured : GameState) (original fresh : NewsItem) :
    TimerTask.expireNews (emitScheduledNews s raw b cid d).1.id 15000
        ∈ (emitScheduledNews s raw b cid d).2 ∧
    (runFollowUpCallback captured cid original fresh).2 = [] := by
  constructor
  · cases b <;> simp [emitScheduledNews, attachChain]
  · unfold runFollowUpCallback
    split <;> rfl

/-- C6 counterexample: in a concrete chained episode the follow-up item
`n2` is emitted by the follow-up callback, yet the only expiry task ever
scheduled is for the original item `n1`; no removal is scheduled for the
follow-up, contradicting the claim that every emitted item (including
follow-ups) has its removal scheduled 15000 ms after emission. -/
theorem followUp_expiry_missing_counterexample :
    (runFollowUpCallback exampleState "chain-1" chainedOriginal newsB).1
        = some (makeFollowUp "chain-1" chainedOriginal newsB) ∧
    (makeFollowUp "chain-1" chainedOriginal newsB).id = "n2" ∧
    chainedEpisodeTasks.filter (isExpiryFor "n2") = [] ∧
    chainedEpisodeTasks.filter (isExpiryFor "n1") = [TimerTask.expireNews "n1" 15000] :=
  ⟨rfl, rfl, rfl, rfl⟩

lemma getLast?_append_singleton {α : Type} (l : List α) (x : α) :
    (l ++ [x]).getLast? = some x := by
  rw [List.getLast?_append_of_ne_nil l (by simp)]
  rfl

/-- C7: both generators produce a series whose first value is exactly the
previous price and whose last value is exactly the current price; the chart
history always has 20 points and the sparkline has exactly the requested
`n ≥ 2` points (hence `n − 2` intermediate ones). -/
theorem trend_series_endpoints (asset : Asset) (rnd : ℕ → ℚ) (n now : ℕ) (hn : 2 ≤ n) :
    ((generatePriceHistory asset rnd).head? = some asset.previousPrice ∧
     (generatePriceHistory asset rnd).getLast? = some asset.price ∧
     (generatePriceHistory asset rnd).length = 20) ∧
    (((generateEnhancedSparklineData asset n rnd now).map Prod.fst).head?
        = some asset.previousPrice ∧
     ((generateEnhancedSparklineData asset n rnd now).map Prod.fst).getLast?
        = some asset.price ∧
     (generateEnhancedSparklineData asset n rnd now).length = n) := by
  refine ⟨⟨?_, ?_, ?_⟩, ⟨?_, ?_, ?_⟩⟩
  · simp [generatePriceHistory]
  · exact getLast?_append_singleton _ _
  · simp [generatePriceHistory]
  · simp [generateEnhancedSparklineData]
  · rw [show (generateEnhancedSparklineData asset n rnd now).map Prod.fst
        = ([(asset.previousPrice, now - n * 500)]
            ++ (List.range (n - 2)).map (fun k =>
                (trendPoint asset.previousPrice asset.price asset.volatility 0.6 n (k + 1)
                   (rnd (k + 1)), now - n * 500 + (k + 1) * 500))).map Prod.fst
          ++ [asset.price] from by simp [generateEnhancedSparklineData]]
    exact getLast?_append_singleton _ _
  · simp only [generateEnhancedSparklineData, List.length_append, List.length_map,
      List.length_range, List.length_cons, List.length_nil]
    omega

/-- Witness for C7 at the spec's example: previous price 100, current price
120, 20 requested points. -/
theorem trend_series_endpoints_witness :
    ((generatePriceHistory exAsset constRand).head? = some 100 ∧
     (generatePriceHistory exAsset constRand).getLast? = some 120 ∧
     (generatePriceHistory exAsset constRand).length = 20) ∧
    (((generateEnhancedSparklineData exAsset 20 constRand 60000).map Prod.fst).head?
        = some 100 ∧
     ((generateEnhancedSparklineData exAsset 20 constRand 60000).map Prod.fst).getLast?
        = some 120 ∧
     (generateEnhancedSparklineData exAsset 20 constRand 60000).length = 20) :=
  trend_series_endpoints exAsset constRand 20 60000 (by norm_num)

/-- C8 (amended): intermediate samples at positions up to the midpoint
carry the random deviation at full weight on top of the linear
interpolation (they are not purely interpolated), samples past the
midpoint carry it with weight 1 − 2·(position − 1/2) decreasing toward
the end; the deviation is (r − 0.5)·volatility·basePrice·scale, and the
two call sites stay distinct: scale 0.3 for chart history, 0.6 for the
sparkline preview. -/
theorem trend_deviation_weights (prev base vol scale : ℚ) (points i : ℕ) (r : ℚ)
    (asset : Asset) (rnd : ℕ → ℚ) (n now : ℕ) :
    ((i : ℚ) / ((points : ℚ) - 1) ≤ 0.5 →
        trendPoint prev base vol scale points i r
          = prev * (1 - (i : ℚ) / ((points : ℚ) - 1)) + base * ((i : ℚ) / ((points : ℚ) - 1))
              + (r - 0.5) * vol * base * scale) ∧
    (0.5 < (i : ℚ) / ((points : ℚ) - 1) →
        trendPoint prev base vol scale points i r
          = prev * (1 - (i : ℚ) / ((points : ℚ) - 1)) + base * ((i : ℚ) / ((points : ℚ) - 1))
              + (r - 0.5) * vol * base * scale
                  * (1 - ((i : ℚ) / ((points : ℚ) - 1) - 0.5) * 2)) ∧
    generatePriceHistory asset rnd
      = [asset.previousPrice]
          ++ (List.range 18).map (fun k =>
              trendPoint asset.previousPrice asset.price asset.volatility 0.3 20 (k + 1)
                (rnd (k + 1)))
          ++ [asset.price] ∧
    generateEnhancedSparklineData asset n rnd now
      = [(asset.previousPrice, now - n * 500)]
          ++ (List.range (n - 2)).map (fun k =>
              (trendPoint asset.previousPrice asset.price asset.volatility 0.6 n (k + 1)
                 (rnd (k + 1)), now - n * 500 + (k + 1) * 500))
          ++ [(asset.price, now)] := by
  refine ⟨?_, ?_, rfl, rfl⟩
  · intro h
    simp only [trendPoint]
    rw [if_neg (not_lt.mpr h)]
    ring
  · intro h
    simp only [trendPoint]
    rw [if_pos h]

/-- Witness for C8 (amended) at the pre-midpoint sample i = 1 and the
post-midpoint sample i = 15 of a 20-point chart-history series. -/
theorem trend_deviation_weights_witness :
    trendPoint 100 120 (1/10) 0.3 20 1 1
      = 100 * (1 - ((1 : ℕ) : ℚ) / (((20 : ℕ) : ℚ) - 1))
          + 120 * (((1 : ℕ) : ℚ) / (((20 : ℕ) : ℚ) - 1))
          + ((1 : ℚ) - 0.5) * (1/10) * 120 * 0.3 ∧
    trendPoint 100 120 (1/10) 0.3 20 15 1
      = 100 * (1 - ((15 : ℕ) : ℚ) / (((20 : ℕ) : ℚ) - 1))
          + 120 * (((15 : ℕ) : ℚ) / (((20 : ℕ) : ℚ) - 1))
          + ((1 : ℚ) - 0.5) * (1/10) * 120 * 0.3
              * (1 - (((15 : ℕ) : ℚ) / (((20 : ℕ) : ℚ) - 1) - 0.5) * 2) :=
  ⟨(trend_deviation_weights 100 120 (1/10) 0.3 20 1 1 exAsset oneRand 20 0).1
      (by push_cast; norm_num),
   (trend_deviation_weights 100 120 (1/10) 0.3 20 15 1 exAsset oneRand 20 0).2.1
      (by push_cast; norm_num)⟩

/-- C8 counterexample: the sample at index 1 of the chart-history series —
position 1/19, before the midpoint — is NOT the pure linear interpolation:
with every random draw equal to 1 it exceeds the interpolated value by the
full deviation (1 − 0.5)·(1/10)·120·0.3 = 9/5. -/
theorem premidpoint_full_deviation_counterexample :
    (generatePriceHistory exAsset oneRand)[1]?
        = some (trendPoint 100 120 (1/10) 0.3 20 1 1) ∧
    trendPoint 100 120 (1/10) 0.3 20 1 1
        = 100 * (1 - 1/19) + 120 * (1/19) + 9/5 ∧
    ((1 : ℚ)/19 ≤ 0.5) ∧
    (100 * (1 - 1/19) + 120 * (1/19) + 9/5 : ℚ) ≠ 100 * (1 - 1/19) + 120 * (1/19) := by
  refine ⟨rfl, ?_, by norm_num, by norm_num⟩
  simp only [trendPoint]
  split_ifs with h
  · exfalso
    revert h
    push_cast
    norm_num
  · push_cast
    norm_num

/-- C9: while the live state is paused the frame consumes no scheduled
event timings and the countdown does not advance, yet timer callbacks
scheduled before the pause still fire and take effect: the follow-up
callback — whose guard reads the snapshot captured at scheduling time,
when the game was neither paused nor over — appends its item to the live
active news, and the expiry callback unconditionally removes its item. -/
theorem pause_timer_semantics (captured live : GameState) (schedule : List ℚ)
    (elapsedMs dt : ℚ) (cid : String) (original fresh : NewsItem) (newsId : String)
    (hlive : live.isPaused = true)
    (hcp : captured.isPaused = false) (hcg : captured.isGameOver = false) :
    dueTimings live schedule elapsedMs = [] ∧
    (tickReducer live dt).timeRemaining = live.timeRemaining ∧
    (fireFollowUp captured live cid original fresh).activeNews
        = live.activeNews ++ [makeFollowUp cid original fresh] ∧
    (fireExpiry live newsId).activeNews
        = live.activeNews.filter (fun item => !(item.id == newsId)) := by
  refine ⟨?_, ?_, ?_, rfl⟩
  · simp [dueTimings, hlive]
  · unfold tickReducer
    rw [if_pos (show (live.isPaused || live.isGameOver) = true by rw [hlive]; rfl)]
  · unfold fireFollowUp
    rw [if_pos (show (!captured.isPaused && !captured.isGameOver) = true by
      rw [hcp, hcg]; rfl)]
    rfl

/-- Witness for C9: a paused live state with a callback captured from the
running example state. -/
theorem pause_timer_semantics_witness :
    dueTimings pausedState [1000] 500 = [] ∧
    (tickReducer pausedState 1).timeRemaining = pausedState.timeRemaining ∧
    (fireFollowUp exampleState pausedState "chain-1" newsA newsB).activeNews
        = pausedState.activeNews ++ [makeFollowUp "chain-1" newsA newsB] ∧
    (fireExpiry pausedState "n1").activeNews
        = pausedState.activeNews.filter (fun item => !(item.id == "n1")) :=
  pause_timer_semantics exampleState pausedState [1000] 500 1 "chain-1" newsA newsB "n1"
    rfl rfl rfl

lemma updatePortfolioHistory_values_ne (p : PortfolioHistoryData) (v : ℚ) (ts : ℕ)
    (ev : Option (String × String)) :
    (updatePortfolioHistory p v ts ev).values ≠ [] := by
  rw [updatePortfolioHistory_values]
  split
  next h =>
    apply List.ne_nil_of_length_pos
    simp only [List.length_tail, List.length_append, List.length_cons, List.length_nil]
    omega
  next h => simp

lemma updatePortfolioHistory_min_le_old (p : PortfolioHistoryData) (v : ℚ) (ts : ℕ)
    (ev : Option (String × String)) (h : p.values ≠ []) :
    (updatePortfolioHistory p v ts ev).min ≤ p.min := by
  rw [updatePortfolioHistory_min, if_neg (by simpa [List.length_eq_zero] using h)]
  exact min_le_left _ _

lemma updatePortfolioHistory_min_le_new (p : PortfolioHistoryData) (v : ℚ) (ts : ℕ)
    (ev : Option (String × String)) :
    (updatePortfolioHistory p v ts ev).min ≤ v * 0.9 := by
  rw [updatePortfolioHistory_min]
  split
  · exact le_refl _
  · exact min_le_right _ _

lemma updatePortfolioHistory_max_ge_old (p : PortfolioHistoryData) (v : ℚ) (ts : ℕ)
    (ev : Option (String × String)) (h : p.values ≠ []) :
    p.max ≤ (updatePortfolioHistory p v ts ev).max := by
  rw [updatePortfolioHistory_max, if_neg (by simpa [List.length_eq_zero] using h)]
  exact le_max_left _ _

lemma updatePortfolioHistory_max_ge_new (p : PortfolioHistoryData) (v : ℚ) (ts : ℕ)
    (ev : Option (String × String)) :
    v * 1.1 ≤ (updatePortfolioHistory p v ts ev).max := by
  rw [updatePortfolioHistory_max]
  split
  · exact le_refl _
  · exact le_max_right _ _

lemma foldl_portfolio_min_le (l : List (ℚ × ℕ × Option (String × String))) :
    ∀ p : PortfolioHistoryData, p.values ≠ [] →
      (l.foldl portfolioStep p).min ≤ p.min := by
  induction l with
  | nil => intro p h; simp
  | cons e t ih =>
    intro p h
    calc (List.foldl portfolioStep (portfolioStep p e) t).min
        ≤ (portfolioStep p e).min := ih _ (updatePortfolioHistory_values_ne p e.1 e.2.1 e.2.2)
      _ ≤ p.min := updatePortfolioHistory_min_le_old p e.1 e.2.1 e.2.2 h

lemma foldl_portfolio_max_ge (l : List (ℚ × ℕ × Option (String × String))) :
    ∀ p : PortfolioHistoryData, p.values ≠ [] →
      p.max ≤ (l.foldl portfolioStep p).max := by
  induction l with
  | nil => intro p h; simp
  | cons e t ih =>
    intro p h
    calc p.max ≤ (portfolioStep p e).max := updatePortfolioHistory_max_ge_old p e.1 e.2.1 e.2.2 h
      _ ≤ (List.foldl portfolioStep (portfolioStep p e) t).max :=
          ih _ (updatePortfolioHistory_values_ne p e.1 e.2.1 e.2.2)

lemma foldl_portfolio_mem_min (l : List (ℚ × ℕ × Option (String × String))) :
    ∀ (p : PortfolioHistoryData) (x : ℚ × ℕ × Option (String × String)), x ∈ l →
      (l.foldl portfolioStep p).min ≤ x.1 * 0.9 := by
  induction l with
  | nil => intro p x hx; simp at hx
  | cons e t ih =>
    intro p x hx
    rcases List.mem_cons.mp hx with hx | hx
    · subst hx
      calc (List.foldl portfolioStep (portfolioStep p x) t).min
          ≤ (portfolioStep p x).min := foldl_portfolio_min_le t _
              (updatePortfolioHistory_values_ne p x.1 x.2.1 x.2.2)
        _ ≤ x.1 * 0.9 := updatePortfolioHistory_min_le_new p x.1 x.2.1 x.2.2
    · exact ih _ x hx

lemma foldl_portfolio_mem_max (l : List (ℚ × ℕ × Option (String × String))) :
    ∀ (p : PortfolioHistoryData) (x : ℚ × ℕ × Option (String × String)), x ∈ l →
      x.1 * 1.1 ≤ (l.foldl portfolioStep p).max := by
  induction l with
  | nil => intro p x hx; simp at hx
  | cons e t ih =>
    intro p x hx
    rcases List.mem_cons.mp hx with hx | hx
    · subst hx
      calc x.1 * 1.1 ≤ (portfolioStep p x).max :=
            updatePortfolioHistory_max_ge_new p x.1 x.2.1 x.2.2
        _ ≤ (List.foldl portfolioStep (portfolioStep p x) t).max := foldl_portfolio_max_ge t _
              (updatePortfolioHistory_values_ne p x.1 x.2.1 x.2.2)
    · exact ih _ x hx

/-- C10: the portfolio min/max are 10%-padded and monotone — the first
append sets them to 0.9·v and 1.1·v, every later append only lowers min to
`min(min, 0.9·v)` and raises max to `max(max, 1.1·v)` with eviction never
touching them, so after any append sequence `min ≤ 0.9·v` and
`max ≥ 1.1·v` for every value ever appended, evicted ones included. -/
theorem portfolio_padded_minmax (p : PortfolioHistoryData) (v : ℚ) (ts : ℕ)
    (ev : Option (String × String)) (l : List (ℚ × ℕ × Option (String × String)))
    (x : ℚ × ℕ × Option (String × String)) (hx : x ∈ l) :
    (p.values = [] →
        (updatePortfolioHistory p v ts ev).min = v * 0.9 ∧
        (updatePortfolioHistory p v ts ev).max = v * 1.1) ∧
    (p.values ≠ [] →
        (updatePortfolioHistory p v ts ev).min = min p.min (v * 0.9) ∧
        (updatePortfolioHistory p v ts ev).max = max p.max (v * 1.1)) ∧
    (runPortfolio l).min ≤ x.1 * 0.9 ∧
    x.1 * 1.1 ≤ (runPortfolio l).max := by
  refine ⟨?_, ?_, foldl_portfolio_mem_min l _ x hx, foldl_portfolio_mem_max l _ x hx⟩
  · intro h
    have h0 : p.values.length = 0 := by simp [h]
    rw [updatePortfolioHistory_min, if_pos h0, updatePortfolioHistory_max, if_pos h0]
    exact ⟨rfl, rfl⟩
  · intro h
    have h0 : ¬ p.values.length = 0 := by simpa [List.length_eq_zero] using h
    rw [updatePortfolioHistory_min, if_neg h0, updatePortfolioHistory_max, if_neg h0]
    exact ⟨rfl, rfl⟩

/-- Witness for C10: the first append to the fresh portfolio history, a
later append to a non-empty one, and the padded bounds after a singleton
append sequence. -/
theorem portfolio_padded_minmax_witness :
    (updatePortfolioHistory initialPortfolioHistory 5 0 none).min = 5 * 0.9 ∧
    (updatePortfolioHistory smallPortfolio 3 1 none).min = min smallPortfolio.min (3 * 0.9) ∧
    (runPortfolio [((5 : ℚ), 0, none)]).min ≤ 5 * 0.9 ∧
    (5 : ℚ) * 1.1 ≤ (runPortfolio [((5 : ℚ), 0, none)]).max :=
  ⟨((portfolio_padded_minmax initialPortfolioHistory 5 0 none [((5 : ℚ), 0, none)]
      ((5 : ℚ), 0, none) (by simp)).1 rfl).1,
   ((portfolio_padded_minmax smallPortfolio 3 1 none [((5 : ℚ), 0, none)]
      ((5 : ℚ), 0, none) (by simp)).2.1 (by simp [smallPortfolio])).1,
   (portfolio_padded_minmax initialPortfolioHistory 5 0 none [((5 : ℚ), 0, none)]
      ((5 : ℚ), 0, none) (by simp)).2.2.1,
   (portfolio_padded_minmax initialPortfolioHistory 5 0 none [((5 : ℚ), 0, none)]
      ((5 : ℚ), 0, none) (by simp)).2.2.2⟩

end PortfolioPanic
